import Mathlib

/-!
Verification of the Brahmastra-Coder backend.

This file gives a shallow embedding of the parts of the repository that the
specification talks about, and proves or refutes the spec's claims about them.

Sources embedded:
* `src/backend/agents/tools.py` — the sandboxed file tool layer
  (`safe_path_for_project`, `write_file`, `read_file`, `list_files`,
  `should_stop`, the global observer callback).
* `src/backend/agents/graph.py` — `safe_invoke` (rate-limit classification),
  `coder_agent` (the iterative Coder node) and the conditional edge.
* `src/backend/api/server.py` — the queue-based event relay
  (`queue_monitor`, `run_agent_with_monitoring`) and the REST file endpoints
  (`read_file`, `delete_file`, `serve_preview_file`).

Modelling conventions:
* A filesystem path is a list of components (`AbsPath`); an argument path as
  received by a tool (`PyPath`) carries an `absolute` flag, matching
  `pathlib`'s join semantics (an absolute right operand replaces the base).
* `resolve()` is modelled as pure component normalisation (no symlinks):
  `"."` is dropped, `".."` pops one component, `".."` above `/` stays at `/`.
* The filesystem is a pure value: an association list of files (later entries
  shadowed by earlier ones) plus a list of directories.  Fallible Python code
  is modelled with `Except`.
-/

namespace Brahmastra

/-- A canonical absolute path, as a list of components ("/a/b" is `["a","b"]`). -/
abbrev AbsPath := List String

/-- A path argument as handed to `pathlib` (`PROJECT_ROOT / path`): an
`absolute` flag plus raw components, which may contain `"."` and `".."`. -/
structure PyPath where
  absolute : Bool
  components : List String
deriving DecidableEq

/-- One step of `Path.resolve()`'s component normalisation (no symlinks):
`"."` is ignored, `".."` drops the last component (staying at `/` when
already there), anything else is appended. -/
def resolveStep (acc : AbsPath) (c : String) : AbsPath :=
  if c = "." then acc
  else if c = ".." then acc.dropLast
  else acc ++ [c]

/-- Normalise a component list, as `Path.resolve()` does on a symlink-free
absolute path. -/
def normalize (comps : List String) : AbsPath :=
  comps.foldl resolveStep []

/-- `(base / path).resolve()`: `pathlib` join (absolute `path` replaces
`base`) followed by normalisation.  `base` is assumed absolute. -/
def resolvePath (base : AbsPath) (path : PyPath) : AbsPath :=
  normalize (if path.absolute then path.components else base ++ path.components)

/-- The proper ancestors of an absolute path, mirroring `pathlib.Path.parents`
(membership is all that the code uses). -/
def parents (q : AbsPath) : List AbsPath :=
  (List.range q.length).map (fun i => q.take i)

/-- `pathlib.Path.parent` of an absolute path (`Path("/").parent` is `/`). -/
def parentDir (q : AbsPath) : AbsPath := q.dropLast

/-- `str()` of an absolute path. -/
def pathStr (q : AbsPath) : String := "/" ++ String.intercalate "/" q

/-- `str()` of a path relative to the project root. -/
def relStr (q : List String) : String := String.intercalate "/" q

/-- `PROJECT_ROOT = pathlib.Path.cwd() / "generated_project"`
(tools.py line 7), parameterised by the components of the working
directory. -/
def PROJECT_ROOT (cwd : AbsPath) : AbsPath := cwd ++ ["generated_project"]

/-- `safe_path_for_project` (tools.py lines 34-38):
joins the argument to `PROJECT_ROOT`, canonicalises it, and raises
`ValueError("Attempt to write outside project root")` unless the resolved
root is one of the result's ancestors, its parent, or the result itself. -/
def safe_path_for_project (cwd : AbsPath) (path : PyPath) : Except String AbsPath :=
  let root := normalize (PROJECT_ROOT cwd)
  let p := resolvePath (PROJECT_ROOT cwd) path
  if ¬ (root ∈ parents p) ∧ ¬ (root = parentDir p) ∧ ¬ (root = p) then
    Except.error "Attempt to write outside project root"
  else
    Except.ok p

/-! ### Helper lemmas about prefixes and normalisation -/

theorem take_length_append {α : Type} (r t : List α) : (r ++ t).take r.length = r := by
  induction r with
  | nil => rfl
  | cons a r ih => simp [List.take_succ_cons, ih]

theorem mem_parents_iff {q r : AbsPath} : r ∈ parents q ↔ (r <+: q ∧ r ≠ q) := by
  unfold parents
  simp only [List.mem_map, List.mem_range]
  constructor
  · rintro ⟨i, hi, rfl⟩
    refine ⟨⟨q.drop i, List.take_append_drop i q⟩, ?_⟩
    intro h
    have hlen := congrArg List.length h
    simp only [List.length_take] at hlen
    omega
  · rintro ⟨⟨t, rfl⟩, hne⟩
    refine ⟨r.length, ?_, take_length_append r t⟩
    cases t with
    | nil => exact absurd (by simp) hne
    | cons a t' => simp

theorem dropLast_isPrefix {α : Type} (l : List α) : l.dropLast <+: l := by
  induction l with
  | nil => exact ⟨[], rfl⟩
  | cons a t ih =>
    cases t with
    | nil => exact ⟨[a], rfl⟩
    | cons b t' =>
      obtain ⟨r, hr⟩ := ih
      exact ⟨r, by simpa [List.dropLast] using congrArg (a :: ·) hr⟩

theorem append_isPrefix_append_iff {α : Type} (l l₁ l₂ : List α) :
    (l ++ l₁ <+: l ++ l₂) ↔ (l₁ <+: l₂) := by
  constructor
  · rintro ⟨t, ht⟩
    exact ⟨t, @List.append_cancel_left _ l (l₁ ++ t) l₂ (by simpa [List.append_assoc] using ht)⟩
  · rintro ⟨t, ht⟩
    exact ⟨t, by simp [List.append_assoc, ht]⟩

/-- The acceptance condition of `safe_path_for_project` is exactly
"the resolved root is a (possibly improper) ancestor of the result". -/
theorem safe_path_accept_iff (root q : AbsPath) :
    (root ∈ parents q ∨ root = parentDir q ∨ root = q) ↔ root <+: q := by
  constructor
  · rintro (h | h | h)
    · exact (mem_parents_iff.mp h).1
    · exact h ▸ dropLast_isPrefix q
    · exact h ▸ ⟨[], by simp⟩
  · intro h
    by_cases hq : root = q
    · exact Or.inr (Or.inr hq)
    · exact Or.inl (mem_parents_iff.mpr ⟨h, hq⟩)

theorem normalize_append (xs ys : List String) :
    normalize (xs ++ ys) = ys.foldl resolveStep (normalize xs) := by
  simp [normalize, List.foldl_append]

theorem foldl_resolveStep_no_dots (acc : AbsPath) (xs : List String)
    (h1 : "." ∉ xs) (h2 : ".." ∉ xs) :
    xs.foldl resolveStep acc = acc ++ xs := by
  induction xs generalizing acc with
  | nil => simp
  | cons a t ih =>
    simp only [List.mem_cons, not_or] at h1 h2
    have ha : resolveStep acc a = acc ++ [a] := by
      simp [resolveStep, Ne.symm h1.1, Ne.symm h2.1, h1.1, h2.1]
    simp [List.foldl_cons, ha, ih _ h1.2 h2.2]

theorem normalize_no_dots (xs : List String) (h1 : "." ∉ xs) (h2 : ".." ∉ xs) :
    normalize xs = xs := by
  simpa using foldl_resolveStep_no_dots [] xs h1 h2

/-- `safe_path_for_project` succeeds exactly when the canonical target has the
resolved root as an ancestor (or equals it), and the returned path is the
canonical target itself, never a clamped or rewritten one. -/
theorem safe_path_ok_iff (cwd : AbsPath) (path : PyPath) :
    (∃ q, safe_path_for_project cwd path = Except.ok q) ↔
      normalize (PROJECT_ROOT cwd) <+: resolvePath (PROJECT_ROOT cwd) path := by
  unfold safe_path_for_project
  rw [← safe_path_accept_iff]
  by_cases h : ¬ (normalize (PROJECT_ROOT cwd) ∈ parents (resolvePath (PROJECT_ROOT cwd) path)) ∧
      ¬ (normalize (PROJECT_ROOT cwd) = parentDir (resolvePath (PROJECT_ROOT cwd) path)) ∧
      ¬ (normalize (PROJECT_ROOT cwd) = resolvePath (PROJECT_ROOT cwd) path)
  · simp only [if_pos h]
    constructor
    · rintro ⟨q, hq⟩; cases hq
    · rintro (hc | hc | hc) <;> [exact absurd hc h.1; exact absurd hc h.2.1; exact absurd hc h.2.2]
  · simp only [if_neg h]
    constructor
    · intro _
      by_contra hno
      push_neg at hno
      exact h ⟨fun hm => hno.1 hm, fun hm => hno.2.1 hm, fun hm => hno.2.2 hm⟩
    · intro _; exact ⟨_, rfl⟩

theorem safe_path_ok_val (cwd : AbsPath) (path : PyPath) (q : AbsPath)
    (h : safe_path_for_project cwd path = Except.ok q) :
    q = resolvePath (PROJECT_ROOT cwd) path := by
  unfold safe_path_for_project at h
  simp only [] at h
  split at h
  · cases h
  · cases h; rfl

/-! ### Filesystem model and the sandboxed file tool layer (tools.py) -/

/-- A pure snapshot of the sandbox filesystem: an association list of files
(first match wins, so newer entries shadow older ones) and a list of existing
directories. -/
structure FS where
  files : List (AbsPath × String)
  dirs : List AbsPath
deriving DecidableEq

def FS.lookupFile (fs : FS) (p : AbsPath) : Option String := fs.files.lookup p

def FS.isFile (fs : FS) (p : AbsPath) : Bool := (fs.lookupFile p).isSome

def FS.hasDir (fs : FS) (p : AbsPath) : Bool := decide (p ∈ fs.dirs)

/-- `pathlib.Path.exists()`: true for both files and directories. -/
def FS.pathExists (fs : FS) (p : AbsPath) : Bool := fs.isFile p || fs.hasDir p

def emptyFS : FS := ⟨[], []⟩

/-- All the prefixes of a path, the directories `mkdir(parents=True)` has to
ensure exist when creating `d`. -/
def prefixesOf (d : AbsPath) : List AbsPath :=
  (List.range (d.length + 1)).map (fun i => d.take i)

/-- `p.parent.mkdir(parents=True, exist_ok=True)`: creates every missing
ancestor directory; raises if some ancestor exists as a regular file. -/
def mkdirParents (fs : FS) (d : AbsPath) : Except String FS :=
  if (prefixesOf d).any (fun q => (fs.lookupFile q).isSome) then
    Except.error "FileExistsError"
  else
    Except.ok { fs with dirs := (prefixesOf d).filter (fun q => ¬ q ∈ fs.dirs) ++ fs.dirs }

/-- The observer hook registered through `set_file_operation_callback`:
called with `(operation_type, relative_path)` and allowed to raise. -/
abbrev FileCb := String → String → Except String Unit

instance {ε α : Type} [DecidableEq ε] [DecidableEq α] : DecidableEq (Except ε α) := fun a b =>
  match a, b with
  | Except.ok x, Except.ok y =>
    if h : x = y then isTrue (by rw [h]) else isFalse (by intro hh; cases hh; exact h rfl)
  | Except.ok _, Except.error _ => isFalse (by intro h; cases h)
  | Except.error _, Except.ok _ => isFalse (by intro h; cases h)
  | Except.error e, Except.error f =>
    if h : e = f then isTrue (by rw [h]) else isFalse (by intro hh; cases hh; exact h rfl)

/-- The result of one `write_file` call: the filesystem afterwards, the list
of `(operation_type, relative_path)` notifications delivered to the observer
hook, and the tool's return value (`Except.error` models a raised
exception). -/
structure WriteOutcome where
  fs : FS
  events : List (String × String)
  ret : Except String String
deriving DecidableEq

/-- `write_file` (tools.py lines 41-68): resolves the path through
`safe_path_for_project`, records whether the target already existed, creates
missing parent directories, writes the content, then notifies the registered
observer hook with `file_update` or `file_create`; an exception raised by the
hook is caught (`except Exception`) and does not affect the result. -/
def write_file (cwd : AbsPath) (cb : Option FileCb) (fs : FS) (path : PyPath)
    (content : String) : WriteOutcome :=
  match safe_path_for_project cwd path with
  | Except.error e => ⟨fs, [], Except.error e⟩
  | Except.ok p =>
    let file_existed := fs.pathExists p
    match mkdirParents fs (parentDir p) with
    | Except.error e => ⟨fs, [], Except.error e⟩
    | Except.ok fs1 =>
      if fs1.hasDir p then
        ⟨fs1, [], Except.error "IsADirectoryError"⟩
      else
        let fs2 : FS := { fs1 with files := (p, content) :: fs1.files }
        let operation_type := if file_existed then "file_update" else "file_create"
        let relative_path := relStr (p.drop (PROJECT_ROOT cwd).length)
        let events :=
          match cb with
          | none => ([] : List (String × String))
          | some f =>
            match f operation_type relative_path with
            | Except.ok _ => [(operation_type, relative_path)]
            | Except.error _ => [(operation_type, relative_path)]
        ⟨fs2, events, Except.ok ("WROTE:" ++ pathStr p)⟩

/-- `read_file` (tools.py lines 71-78): resolves the path, returns `""` when
nothing exists there, the content for a file, and raises for a directory. -/
def read_file (cwd : AbsPath) (fs : FS) (path : PyPath) : Except String String :=
  match safe_path_for_project cwd path with
  | Except.error e => Except.error e
  | Except.ok p =>
    if fs.pathExists p then
      match fs.lookupFile p with
      | some c => Except.ok c
      | none => Except.error "IsADirectoryError"
    else
      Except.ok ""

/-- `list_files` (tools.py lines 87-94): resolves the directory, returns an
error string (not an exception) when it is not a directory, otherwise the
newline-joined relative paths of the files below it. -/
def list_files (cwd : AbsPath) (fs : FS) (directory : PyPath) : Except String String :=
  match safe_path_for_project cwd directory with
  | Except.error e => Except.error e
  | Except.ok p =>
    if ¬ fs.hasDir p then
      Except.ok ("ERROR: " ++ pathStr p ++ " is not a directory")
    else
      let names := ((fs.files.map Prod.fst).eraseDups).filter
        (fun q => decide (p <+: q) && ¬ q == p)
      let rels := names.map (fun q => relStr (q.drop (PROJECT_ROOT cwd).length))
      Except.ok (if rels.isEmpty then "No files found." else String.intercalate "\n" rels)

/-- `should_stop` (tools.py lines 26-31): evaluates
`bool(_should_stop_callback and _should_stop_callback())` inside a
`try/except` that turns any raised exception into `False`.  The registered
callback is modelled as the value it would produce: absent, raising, or
returning a boolean. -/
def should_stop (cb : Option (Except String Bool)) : Bool :=
  match cb with
  | none => false
  | some (Except.ok b) => b
  | some (Except.error _) => false

/-! ### Rate-limit-aware invocation wrapper (graph.py lines 27-42) -/

/-- Python's `str.lower()` restricted to what `Char.toLower` does (identical
on the ASCII error messages involved). -/
def pyLower (s : String) : String := String.mk (s.data.map Char.toLower)

/-- `pat in s` for Python strings: some suffix of `s` starts with `pat`. -/
def containsSub (s pat : String) : Bool :=
  s.data.tails.any (fun t => decide (pat.data <+: t))

theorem containsSub_iff (s pat : String) :
    containsSub s pat = true ↔ ∃ l r, s.data = l ++ pat.data ++ r := by
  unfold containsSub
  rw [List.any_eq_true]
  constructor
  · rintro ⟨t, ht, hp⟩
    obtain ⟨l, hl⟩ := (List.mem_tails t s.data).mp ht
    obtain ⟨r, hr⟩ := of_decide_eq_true hp
    exact ⟨l, r, by rw [← hl, ← hr, List.append_assoc]⟩
  · rintro ⟨l, r, hs⟩
    refine ⟨pat.data ++ r, (List.mem_tails _ _).mpr ⟨l, by rw [hs, List.append_assoc]⟩,
      decide_eq_true ⟨r, rfl⟩⟩

/-- The possible outcomes of `safe_invoke`: the call's value, a raised
`RateLimitExceeded`, or the original exception re-raised. -/
inductive InvokeOutcome (α : Type) where
  | ok (a : α)
  | rateLimitExceeded (msg : String)
  | raised (msg : String)
deriving DecidableEq

/-- `safe_invoke` (graph.py lines 31-42): returns the call's result on
success; on failure re-raises as `RateLimitExceeded` when
`"rate limit" in str(e).lower()`, and re-raises the original error
otherwise.  The wrapped call is modelled by its outcome. -/
def safe_invoke {α : Type} (call : Except String α) : InvokeOutcome α :=
  match call with
  | Except.ok a => InvokeOutcome.ok a
  | Except.error e =>
    if containsSub (pyLower e) "rate limit" then InvokeOutcome.rateLimitExceeded e
    else InvokeOutcome.raised e

/-! ### Data model and the Coder node (graph.py lines 78-157) -/

structure ImplementationStep where
  filepath : PyPath
  task_description : String
deriving DecidableEq

structure TaskPlan where
  implementation_steps : List ImplementationStep
deriving DecidableEq

structure CoderState where
  task_plan : TaskPlan
  current_step_idx : Nat
deriving DecidableEq

/-- The LangGraph state dict, restricted to the keys the Coder loop touches
(`task_plan`, `coder_state`, `status`); a node's return dict is merged into
the state, so keys a node does not return keep their previous value. -/
structure GraphState where
  task_plan : TaskPlan
  coder_state : Option CoderState
  status : Option String
deriving DecidableEq

/-- The environment of one Coder activation: the working directory fixing
`PROJECT_ROOT`, the registered stop callback, the filesystem the activation
starts from, and the outcome of the bounded react-agent sub-call
(`react_agent.invoke` behind `safe_invoke`), given as the filesystem it
leaves behind plus whether it returned or raised.  The sub-call is an
opaque LLM-driven collaborator, so it enters the model as an oracle. -/
structure CoderEnv where
  cwd : AbsPath
  stopCb : Option (Except String Bool)
  fs : FS
  subcall : FS × Except String Unit
deriving DecidableEq

/-- What one Coder activation did: the merged state, the filesystem
afterwards, how many provider sub-call invocations and node-level tool
invocations it made, and the exception it let propagate, if any. -/
structure CoderResult where
  state : GraphState
  fs : FS
  providerCalls : Nat
  toolCalls : Nat
  raised : Option String
deriving DecidableEq

/-- Lines 80-82 of graph.py: the activation's `CoderState`, created at index
0 when the state dict does not hold one yet. -/
def activeCoderState (st : GraphState) : CoderState :=
  st.coder_state.getD ⟨st.task_plan, 0⟩

/-- `coder_agent` (graph.py lines 78-137).  Key order of operations, kept
from the source: create `CoderState` at index 0 when absent; return DONE when
the index is past the last step; poll `should_stop()`; call
`read_file.run(current_task.filepath)` — this call is OUTSIDE the
`try/except`, so an exception it raises propagates out of the node; invoke
the react sub-call inside `try/except Exception` (both success and failure
continue); advance `current_step_idx` by one; set status DONE when the index
reaches the step count. -/
def coder_agent (env : CoderEnv) (st : GraphState) : CoderResult :=
  let coder_state := activeCoderState st
  let steps := coder_state.task_plan.implementation_steps
  if h : steps.length ≤ coder_state.current_step_idx then
    ⟨{ st with coder_state := some coder_state, status := some "DONE" }, env.fs, 0, 0, none⟩
  else if should_stop env.stopCb then
    ⟨{ st with coder_state := some coder_state, status := some "DONE" }, env.fs, 0, 0, none⟩
  else
    let current_task := steps.get ⟨coder_state.current_step_idx, by omega⟩
    match read_file env.cwd env.fs current_task.filepath with
    | Except.error e => ⟨st, env.fs, 0, 1, some e⟩
    | Except.ok _existing_content =>
      let fs' := env.subcall.1
      let coder_state' : CoderState :=
        { coder_state with current_step_idx := coder_state.current_step_idx + 1 }
      if steps.length ≤ coder_state'.current_step_idx then
        ⟨{ st with coder_state := some coder_state', status := some "DONE" }, fs', 1, 1, none⟩
      else
        ⟨{ st with coder_state := some coder_state' }, fs', 1, 1, none⟩

/-- The conditional edge after the Coder node (graph.py lines 150-154). -/
def coder_edge (s : GraphState) : String :=
  if s.status = some "DONE" then "END" else "coder"

/-- Iterated Coder activations: activation `k` runs in environment `env k`.
An exception propagating out of an activation aborts the loop, leaving the
state as it was. -/
def runCoder (env : Nat → CoderEnv) (st : GraphState) : Nat → GraphState
  | 0 => st
  | k + 1 =>
    let st' := runCoder env st k
    let r := coder_agent (env k) st'
    match r.raised with
    | none => r.state
    | some _ => st'

/-! ### Cross-thread event relay (server.py lines 114-160) -/

/-- An outbound Socket.IO message, restricted to the fields the spec
mentions. -/
structure OutMsg where
  type : String
  message : String
  dataPath : Option String
  status : Option String
deriving DecidableEq

/-- The message `queue_monitor` emits for a drained `(operation_type,
filepath)` item (server.py lines 137-149). -/
def emitMsg (ev : String × String) : OutMsg :=
  { type := ev.1
    message := (if ev.1 = "file_create" then "Created" else "Updated") ++ ": " ++ ev.2
    dataPath := some ev.2
    status := none }

/-- A configuration of the worker/relay pair: the `(kind, path)` tuples the
worker has yet to enqueue, the thread-safe FIFO queue, and the messages
emitted so far. -/
structure RelayState where
  pending : List (String × String)
  queue : List (String × String)
  emitted : List OutMsg
deriving DecidableEq

/-- One interleaved step: the worker thread enqueues its next tuple
(`file_op_callback`, server.py lines 119-125), or the poller drains the head
of the queue and emits one message for it (`queue_monitor`, lines 131-157).
The queue is the sole hand-off between the two. -/
inductive RelayStep : RelayState → RelayState → Prop where
  | enqueue (e : String × String) (rest queue : List (String × String)) (em : List OutMsg) :
      RelayStep ⟨e :: rest, queue, em⟩ ⟨rest, queue ++ [e], em⟩
  | drain (pending : List (String × String)) (e : String × String)
      (queue : List (String × String)) (em : List OutMsg) :
      RelayStep ⟨pending, e :: queue, em⟩ ⟨pending, queue, em ++ [emitMsg e]⟩

/-- Reachability under arbitrarily interleaved worker/poller steps. -/
inductive RelayReach : RelayState → RelayState → Prop where
  | refl (s : RelayState) : RelayReach s s
  | tail {s t u : RelayState} : RelayReach s t → RelayStep t u → RelayReach s u

/-! ### Completion protocol (server.py lines 163-224) -/

inductive RunAction where
  | emit (m : OutMsg)
  | deregisterHook
deriving DecidableEq

/-- The terminal status message (server.py lines 183-187). -/
def statusCompleted : OutMsg :=
  { type := "status"
    message := "✅ Project generated successfully!"
    dataPath := none
    status := some "completed" }

/-- The tail of a successful run, from the moment `agent.invoke` returns
(server.py lines 173-198), as the sequence of observable actions.
`backlog` is the queue content at that moment (the worker enqueues nothing
further); `g` is the number of items the `queue_monitor` poller drains
during the fixed `asyncio.sleep(0.5)` grace period, one per ~100ms poll
interval (`g` is a scheduling-dependent parameter, about 5 in practice and
never proportional to the backlog).  After the grace period the handler
emits `status=completed`, clears `monitoring_active`, and `await`s
`monitor_task`, whose loop condition `monitoring_active or not
file_op_queue.empty()` keeps draining until the queue is empty; only then is
the observer hook deregistered (`set_file_operation_callback(None)`). -/
def run_agent_with_monitoring (backlog : List (String × String)) (g : Nat) : List RunAction :=
  ((backlog.take g).map (fun e => RunAction.emit (emitMsg e)))
    ++ [RunAction.emit statusCompleted]
    ++ ((backlog.drop g).map (fun e => RunAction.emit (emitMsg e)))
    ++ [RunAction.deregisterHook]

/-- The outbound messages of an action sequence, in order. -/
def emittedMsgs (actions : List RunAction) : List OutMsg :=
  actions.filterMap (fun a =>
    match a with
    | RunAction.emit m => some m
    | RunAction.deregisterHook => none)

/-! ### REST file endpoints (server.py lines 301-442) -/

/-- Python's `str.startswith`. -/
def pyStartswith (s pre : String) : Bool := decide (pre.data <+: s.data)

namespace Api

/-- The containment check shared by the `read_file`, `delete_file` and
`serve_preview_file` endpoints (server.py lines 308, 346 and 398):
`str(file_path.resolve()).startswith(str(Path(PROJECT_ROOT).resolve()))` —
a STRING-prefix comparison, unlike the tool layer's ancestor check. -/
def passes_security_check (cwd : AbsPath) (filepath : PyPath) : Bool :=
  pyStartswith (pathStr (resolvePath (PROJECT_ROOT cwd) filepath))
    (pathStr (normalize (PROJECT_ROOT cwd)))

/-- `GET /api/file/{filepath}` (server.py lines 301-336), reduced to its
access-control and lookup behaviour: 403 on a failed security check, 404
when nothing exists at the path, 400 for a directory, otherwise the file's
content. -/
def read_file (cwd : AbsPath) (fs : FS) (filepath : PyPath) : Except Nat String :=
  let p := resolvePath (PROJECT_ROOT cwd) filepath
  if ¬ passes_security_check cwd filepath then Except.error 403
  else if ¬ fs.pathExists p then Except.error 404
  else
    match fs.lookupFile p with
    | none => Except.error 400
    | some c => Except.ok c

/-- `DELETE /api/file/{filepath}` (server.py lines 339-362): 403 on a failed
security check, 404 when absent, otherwise unlinks the file. -/
def delete_file (cwd : AbsPath) (fs : FS) (filepath : PyPath) : FS × Except Nat String :=
  let p := resolvePath (PROJECT_ROOT cwd) filepath
  if ¬ passes_security_check cwd filepath then (fs, Except.error 403)
  else if ¬ fs.pathExists p then (fs, Except.error 404)
  else
    ({ fs with files := fs.files.filter (fun kv => ¬ kv.1 == p) },
      Except.ok "File deleted successfully")

/-- Split a character list at every `'.'`. -/
def splitOnDot : List Char → List (List Char)
  | [] => [[]]
  | c :: cs =>
    let rest := splitOnDot cs
    if c = '.' then [] :: rest
    else
      match rest with
      | [] => [[c]]
      | r :: rs => (c :: r) :: rs

/-- `pathlib.Path.suffix` of a file name: the final `"."`-separated part,
with a leading dot; empty for names with no dot or a single leading dot. -/
def pySuffix (name : String) : String :=
  let parts := splitOnDot name.data
  if parts.length ≤ 1 then ""
  else if (parts.headD []).isEmpty && parts.length = 2 then ""
  else String.mk ('.' :: parts.getLastD [])

def mime_types : List (String × String) :=
  [(".html", "text/html"), (".css", "text/css"), (".js", "application/javascript"),
   (".json", "application/json"), (".png", "image/png"), (".jpg", "image/jpeg"),
   (".jpeg", "image/jpeg"), (".gif", "image/gif"), (".svg", "image/svg+xml"),
   (".ico", "image/x-icon"), (".woff", "font/woff"), (".woff2", "font/woff2"),
   (".ttf", "font/ttf"), (".eot", "application/vnd.ms-fontobject")]

/-- `GET /api/preview/{filepath}` (server.py lines 391-442): same security
check, then the file's content with its mapped MIME type. -/
def serve_preview_file (cwd : AbsPath) (fs : FS) (filepath : PyPath) :
    Except Nat (String × String) :=
  let p := resolvePath (PROJECT_ROOT cwd) filepath
  if ¬ passes_security_check cwd filepath then Except.error 403
  else if ¬ fs.pathExists p then Except.error 404
  else
    match fs.lookupFile p with
    | none => Except.error 400
    | some c =>
      let ext := pyLower (pySuffix (p.getLastD ""))
      Except.ok (c, (mime_types.lookup ext).getD "text/plain")

end Api

/-! ### Evaluation lemmas for path resolution -/

theorem resolveStep_dot (acc : AbsPath) : resolveStep acc "." = acc := by
  simp [resolveStep]

theorem resolveStep_dotdot (acc : AbsPath) : resolveStep acc ".." = acc.dropLast := by
  simp [resolveStep]

theorem resolveStep_name (acc : AbsPath) (c : String) (hc1 : c ≠ ".") (hc2 : c ≠ "..") :
    resolveStep acc c = acc ++ [c] := by
  simp [resolveStep, hc1, hc2]

theorem normalize_root_ne_nil (cwd : AbsPath) : normalize (PROJECT_ROOT cwd) ≠ [] := by
  unfold PROJECT_ROOT
  rw [normalize_append]
  simp [resolveStep_name _ "generated_project" (by decide) (by decide)]

theorem safe_path_error_of_not_isPrefix (cwd : AbsPath) (path : PyPath)
    (h : ¬ normalize (PROJECT_ROOT cwd) <+: resolvePath (PROJECT_ROOT cwd) path) :
    safe_path_for_project cwd path = Except.error "Attempt to write outside project root" := by
  have hno : ¬ (normalize (PROJECT_ROOT cwd) ∈ parents (resolvePath (PROJECT_ROOT cwd) path) ∨
      normalize (PROJECT_ROOT cwd) = parentDir (resolvePath (PROJECT_ROOT cwd) path) ∨
      normalize (PROJECT_ROOT cwd) = resolvePath (PROJECT_ROOT cwd) path) :=
    fun hacc => h ((safe_path_accept_iff _ _).mp hacc)
  unfold safe_path_for_project
  rw [if_pos ⟨fun hA => hno (Or.inl hA), fun hB => hno (Or.inr (Or.inl hB)),
    fun hC => hno (Or.inr (Or.inr hC))⟩]

theorem safe_path_ok_of_isPrefix (cwd : AbsPath) (path : PyPath)
    (h : normalize (PROJECT_ROOT cwd) <+: resolvePath (PROJECT_ROOT cwd) path) :
    safe_path_for_project cwd path = Except.ok (resolvePath (PROJECT_ROOT cwd) path) := by
  have hacc := (safe_path_accept_iff _ _).mpr h
  unfold safe_path_for_project
  rw [if_neg]
  rintro ⟨hA, hB, hC⟩
  rcases hacc with hx | hx | hx
  exacts [hA hx, hB hx, hC hx]

theorem isPrefix_ne_nil {α : Type} {r p : List α} (h : r <+: p) (hr : r ≠ []) : p ≠ [] := by
  obtain ⟨t, ht⟩ := h
  rintro rfl
  exact hr (List.append_eq_nil.mp ht).1

/-- C1: every path argument handed to a file-tool capability (read, write,
list) is joined to the sandbox root and canonicalised, and the operation
raises the SandboxViolation error with no filesystem change unless the
canonical result equals the root or is a descendant of it; in particular
`"../outside.txt"` and `"/etc/passwd"` are rejected, the accepted value is
the canonical path itself (never clamped or rewritten), and the root itself
(`"."`) and paths strictly inside it are accepted. -/
theorem C1_sandbox_containment (cwd : AbsPath)
    (h1 : "." ∉ cwd) (h2 : ".." ∉ cwd) :
    (∀ path : PyPath,
      (∃ q, safe_path_for_project cwd path = Except.ok q) ↔
        normalize (PROJECT_ROOT cwd) <+: resolvePath (PROJECT_ROOT cwd) path) ∧
    (∀ path q, safe_path_for_project cwd path = Except.ok q →
      q = resolvePath (PROJECT_ROOT cwd) path) ∧
    (∀ path e, safe_path_for_project cwd path = Except.error e →
      (∀ cb fs content, write_file cwd cb fs path content = ⟨fs, [], Except.error e⟩) ∧
      (∀ fs, read_file cwd fs path = Except.error e) ∧
      (∀ fs, list_files cwd fs path = Except.error e)) ∧
    safe_path_for_project cwd ⟨false, ["..", "outside.txt"]⟩ =
      Except.error "Attempt to write outside project root" ∧
    safe_path_for_project cwd ⟨true, ["etc", "passwd"]⟩ =
      Except.error "Attempt to write outside project root" ∧
    safe_path_for_project cwd ⟨false, ["."]⟩ = Except.ok (PROJECT_ROOT cwd) ∧
    (∀ name, name ≠ "." → name ≠ ".." →
      safe_path_for_project cwd ⟨false, [name]⟩ = Except.ok (PROJECT_ROOT cwd ++ [name])) := by
  have hr1 : "." ∉ PROJECT_ROOT cwd := by
    simp [PROJECT_ROOT, List.mem_append, h1]
  have hr2 : ".." ∉ PROJECT_ROOT cwd := by
    simp [PROJECT_ROOT, List.mem_append, h2]
  have hR : normalize (PROJECT_ROOT cwd) = PROJECT_ROOT cwd := normalize_no_dots _ hr1 hr2
  refine ⟨safe_path_ok_iff cwd, safe_path_ok_val cwd, ?_, ?_, ?_, ?_, ?_⟩
  · intro path e herr
    exact ⟨fun cb fs content => by simp [write_file, herr],
      fun fs => by simp [read_file, herr],
      fun fs => by simp [list_files, herr]⟩
  · -- writing to "../outside.txt" is rejected
    apply safe_path_error_of_not_isPrefix
    have hq : resolvePath (PROJECT_ROOT cwd) ⟨false, ["..", "outside.txt"]⟩ =
        cwd ++ ["outside.txt"] := by
      unfold resolvePath
      rw [if_neg (by simp), normalize_append, hR]
      simp only [List.foldl_cons, List.foldl_nil, resolveStep_dotdot,
        resolveStep_name _ "outside.txt" (by decide) (by decide)]
      rw [PROJECT_ROOT, List.dropLast_concat]
    rw [hq, hR]
    rintro ⟨t, ht⟩
    rw [PROJECT_ROOT, List.append_assoc] at ht
    have := @List.append_cancel_left _ cwd (["generated_project"] ++ t) ["outside.txt"] ht
    simp only [List.cons_append, List.nil_append, List.cons.injEq] at this
    exact absurd this.1 (by decide)
  · -- reading "/etc/passwd" is rejected
    apply safe_path_error_of_not_isPrefix
    have hq : resolvePath (PROJECT_ROOT cwd) ⟨true, ["etc", "passwd"]⟩ = ["etc", "passwd"] := by
      unfold resolvePath
      rw [if_pos rfl]
      exact normalize_no_dots _ (by decide) (by decide)
    rw [hq, hR]
    rintro ⟨t, ht⟩
    have hmem : "generated_project" ∈ (["etc", "passwd"] : List String) := by
      rw [← ht]
      exact List.mem_append_left _ (by simp [PROJECT_ROOT])
    exact absurd hmem (by decide)
  · -- the root itself is accepted, unchanged
    have hq : resolvePath (PROJECT_ROOT cwd) ⟨false, ["."]⟩ = PROJECT_ROOT cwd := by
      unfold resolvePath
      rw [if_neg (by simp), normalize_append, hR]
      simp [resolveStep_dot]
    have := safe_path_ok_of_isPrefix cwd ⟨false, ["."]⟩ (by rw [hq, hR])
    rwa [hq] at this
  · -- paths strictly inside the root are accepted
    intro name hn1 hn2
    have hq : resolvePath (PROJECT_ROOT cwd) ⟨false, [name]⟩ = PROJECT_ROOT cwd ++ [name] := by
      unfold resolvePath
      rw [if_neg (by simp), normalize_append, hR]
      simp [resolveStep_name _ name hn1 hn2]
    have := safe_path_ok_of_isPrefix cwd ⟨false, [name]⟩ (by rw [hq, hR]; exact ⟨[name], rfl⟩)
    rwa [hq] at this

/-- Witness for C1 at a concrete working directory: both hypotheses hold and
the two traversal attempts are rejected. -/
theorem C1_sandbox_containment_witness :
    ("." ∉ (["home", "vijay"] : AbsPath)) ∧ (".." ∉ (["home", "vijay"] : AbsPath)) ∧
    safe_path_for_project ["home", "vijay"] ⟨false, ["..", "outside.txt"]⟩ =
      Except.error "Attempt to write outside project root" ∧
    safe_path_for_project ["home", "vijay"] ⟨true, ["etc", "passwd"]⟩ =
      Except.error "Attempt to write outside project root" :=
  ⟨by decide, by decide,
    (C1_sandbox_containment ["home", "vijay"] (by decide) (by decide)).2.2.2.1,
    (C1_sandbox_containment ["home", "vijay"] (by decide) (by decide)).2.2.2.2.1⟩

/-! ### Characterising a successful `write_file` -/

theorem mem_prefixesOf {d l : AbsPath} : d ∈ prefixesOf l ↔ ∃ i ≤ l.length, d = l.take i := by
  unfold prefixesOf
  simp only [List.mem_map, List.mem_range]
  constructor
  · rintro ⟨i, hi, rfl⟩; exact ⟨i, by omega, rfl⟩
  · rintro ⟨i, hi, rfl⟩; exact ⟨i, by omega, rfl⟩

theorem length_le_of_mem_prefixesOf {d l : AbsPath} (h : d ∈ prefixesOf l) :
    d.length ≤ l.length := by
  obtain ⟨i, hi, rfl⟩ := mem_prefixesOf.mp h
  simp [List.length_take]

theorem self_not_mem_prefixesOf_parentDir {p : AbsPath} (hp : p ≠ []) :
    p ∉ prefixesOf (parentDir p) := by
  intro hmem
  have h1 := length_le_of_mem_prefixesOf hmem
  have h2 : (parentDir p).length = p.length - 1 := List.length_dropLast p
  have h3 : 0 < p.length := List.length_pos.mpr hp
  omega

/-- The filesystem after `mkdir(parents=True)` on `parentDir p`. -/
def afterMkdir (fs : FS) (p : AbsPath) : FS :=
  { fs with dirs := (prefixesOf (parentDir p)).filter (fun q => ¬ q ∈ fs.dirs) ++ fs.dirs }

theorem mkdirParents_ok (fs : FS) (p : AbsPath)
    (hpar : ∀ d ∈ prefixesOf (parentDir p), fs.lookupFile d = none) :
    mkdirParents fs (parentDir p) = Except.ok (afterMkdir fs p) := by
  unfold mkdirParents afterMkdir
  have hany : ((prefixesOf (parentDir p)).any (fun q => (fs.lookupFile q).isSome)) = false := by
    rw [List.any_eq_false]
    intro d hd
    simp [hpar d hd]
  rw [if_neg (by simp [hany])]

theorem afterMkdir_hasDir_self (fs : FS) (p : AbsPath) (hp : p ≠ [])
    (hnd : fs.hasDir p = false) : (afterMkdir fs p).hasDir p = false := by
  unfold afterMkdir FS.hasDir
  apply decide_eq_false
  intro hmem
  rcases List.mem_append.mp hmem with hf | hf
  · exact self_not_mem_prefixesOf_parentDir hp (List.mem_of_mem_filter hf)
  · exact absurd hf (of_decide_eq_false hnd)

theorem afterMkdir_hasDir_parents (fs : FS) (p : AbsPath) (d : AbsPath)
    (hd : d ∈ prefixesOf (parentDir p)) : (afterMkdir fs p).hasDir d = true := by
  unfold afterMkdir FS.hasDir
  apply decide_eq_true
  by_cases hin : d ∈ fs.dirs
  · exact List.mem_append_right _ hin
  · exact List.mem_append_left _ (List.mem_filter.mpr ⟨hd, by simpa using hin⟩)

/-- What a `write_file` call does when the path is in-sandbox, the target is
not a directory, and no ancestor of the target exists as a file: the content
is stored, the missing parent directories are created, exactly one
notification is delivered when a hook is registered (`file_update` when the
target pre-existed, `file_create` otherwise), and the normal confirmation
string is returned — independently of whether the hook raises. -/
theorem write_file_success (cwd : AbsPath) (cb : Option FileCb) (fs : FS) (path : PyPath)
    (p : AbsPath) (content : String)
    (hok : safe_path_for_project cwd path = Except.ok p)
    (hp : p ≠ [])
    (hnd : fs.hasDir p = false)
    (hpar : ∀ d ∈ prefixesOf (parentDir p), fs.lookupFile d = none) :
    write_file cwd cb fs path content =
      ⟨{ files := (p, content) :: (afterMkdir fs p).files, dirs := (afterMkdir fs p).dirs },
       (match cb with
        | none => []
        | some _ => [((if fs.pathExists p then "file_update" else "file_create"),
            relStr (p.drop (PROJECT_ROOT cwd).length))]),
       Except.ok ("WROTE:" ++ pathStr p)⟩ := by
  unfold write_file
  rw [hok]
  simp only [mkdirParents_ok fs p hpar]
  rw [if_neg (by simp [afterMkdir_hasDir_self fs p hp hnd])]
  cases cb with
  | none => rfl
  | some f =>
    simp only [WriteOutcome.mk.injEq, true_and]
    refine ⟨?_, trivial⟩
    cases hf : f (if fs.pathExists p then "file_update" else "file_create")
      (relStr (p.drop (PROJECT_ROOT cwd).length)) <;> simp

theorem write_file_p_ne_nil (cwd : AbsPath) (path : PyPath) (p : AbsPath)
    (hok : safe_path_for_project cwd path = Except.ok p) : p ≠ [] := by
  have hpre := (safe_path_ok_iff cwd path).mp ⟨p, hok⟩
  rw [← safe_path_ok_val cwd path p hok] at hpre
  exact isPrefix_ne_nil hpre (normalize_root_ne_nil cwd)

theorem lookup_cons_self {β : Type} (p : AbsPath) (c : β) (l : List (AbsPath × β)) :
    ((p, c) :: l).lookup p = some c := by
  simp [List.lookup]

theorem lookup_cons_ne {β : Type} (p d : AbsPath) (c : β) (l : List (AbsPath × β))
    (h : d ≠ p) : ((p, c) :: l).lookup d = l.lookup d := by
  have hb : (d == p) = false := beq_false_of_ne h
  simp [List.lookup, hb]

theorem prefix_of_parentDir_ne_self {p d : AbsPath} (hp : p ≠ [])
    (hd : d ∈ prefixesOf (parentDir p)) : d ≠ p := by
  intro h
  exact self_not_mem_prefixesOf_parentDir hp (h ▸ hd)

/-- C2: a write to an in-sandbox path creates the missing parent
directories, stores the content, and notifies the registered observer hook
with `file_create` when no file existed at the path immediately before the
write and `file_update` otherwise; in particular the first write to a path
emits `file_create` and a subsequent write to the same path emits
`file_update` regardless of the new content. -/
theorem C2_write_create_update (cwd : AbsPath) (f : FileCb) (fs : FS) (path : PyPath)
    (p : AbsPath) (c₁ c₂ : String)
    (hok : safe_path_for_project cwd path = Except.ok p)
    (hnd : fs.hasDir p = false)
    (hpar : ∀ d ∈ prefixesOf (parentDir p), fs.lookupFile d = none) :
    (write_file cwd (some f) fs path c₁).fs.lookupFile p = some c₁ ∧
    (∀ d ∈ prefixesOf (parentDir p), (write_file cwd (some f) fs path c₁).fs.hasDir d = true) ∧
    (write_file cwd (some f) fs path c₁).events =
      [((if fs.pathExists p then "file_update" else "file_create"),
        relStr (p.drop (PROJECT_ROOT cwd).length))] ∧
    (write_file cwd (some f) fs path c₁).ret = Except.ok ("WROTE:" ++ pathStr p) ∧
    (fs.pathExists p = false →
      (write_file cwd (some f) fs path c₁).events.map Prod.fst = ["file_create"]) ∧
    (write_file cwd (some f) (write_file cwd (some f) fs path c₁).fs path c₂).events.map Prod.fst
      = ["file_update"] ∧
    (write_file cwd (some f) (write_file cwd (some f) fs path c₁).fs path c₂).fs.lookupFile p
      = some c₂ := by
  have hp : p ≠ [] := write_file_p_ne_nil cwd path p hok
  have h1 := write_file_success cwd (some f) fs path p c₁ hok hp hnd hpar
  have hnd₁ : (write_file cwd (some f) fs path c₁).fs.hasDir p = false := by
    rw [h1]; exact afterMkdir_hasDir_self fs p hp hnd
  have hpar₁ : ∀ d ∈ prefixesOf (parentDir p),
      (write_file cwd (some f) fs path c₁).fs.lookupFile d = none := by
    intro d hd
    rw [h1]
    show ((p, c₁) :: (afterMkdir fs p).files).lookup d = none
    rw [lookup_cons_ne p d c₁ _ (prefix_of_parentDir_ne_self hp hd)]
    exact hpar d hd
  have h2 := write_file_success cwd (some f) (write_file cwd (some f) fs path c₁).fs path p c₂
    hok hp hnd₁ hpar₁
  have hex₁ : (write_file cwd (some f) fs path c₁).fs.pathExists p = true := by
    rw [h1]
    show (FS.isFile _ p || _) = true
    have : FS.lookupFile ⟨(p, c₁) :: (afterMkdir fs p).files, (afterMkdir fs p).dirs⟩ p
        = some c₁ := lookup_cons_self p c₁ _
    simp [FS.isFile, this]
  refine ⟨?_, ?_, ?_, ?_, ?_, ?_, ?_⟩
  · rw [h1]; exact lookup_cons_self p c₁ _
  · intro d hd
    rw [h1]
    exact afterMkdir_hasDir_parents fs p d hd
  · rw [h1]
  · rw [h1]
  · intro hexists
    rw [h1]
    simp [hexists]
  · rw [h2, hex₁]
    simp
  · rw [h2]
    exact lookup_cons_self p c₂ _

/-- Witness for C2: on an empty sandbox, writing `"a/b/c.txt"` resolves
in-sandbox, the first write notifies `file_create`, the second write to the
same path (different content) notifies `file_update`. -/
theorem C2_write_create_update_witness :
    safe_path_for_project ["home", "vijay"] ⟨false, ["a", "b", "c.txt"]⟩ =
      Except.ok ["home", "vijay", "generated_project", "a", "b", "c.txt"] ∧
    (write_file ["home", "vijay"] (some (fun _ _ => Except.ok ())) emptyFS
        ⟨false, ["a", "b", "c.txt"]⟩ "one").events.map Prod.fst = ["file_create"] ∧
    (write_file ["home", "vijay"] (some (fun _ _ => Except.ok ()))
        (write_file ["home", "vijay"] (some (fun _ _ => Except.ok ())) emptyFS
          ⟨false, ["a", "b", "c.txt"]⟩ "one").fs
        ⟨false, ["a", "b", "c.txt"]⟩ "two").events.map Prod.fst = ["file_update"] := by
  have h := C2_write_create_update ["home", "vijay"] (fun _ _ => Except.ok ()) emptyFS
    ⟨false, ["a", "b", "c.txt"]⟩ ["home", "vijay", "generated_project", "a", "b", "c.txt"]
    "one" "two" (by decide) (by decide) (by decide)
  exact ⟨by decide, h.2.2.2.2.1 (by decide), h.2.2.2.2.2.1⟩

/-- C10: an exception raised by the registered observer callback is caught
inside `write_file` — the content has been written and the normal
confirmation string is returned, exactly as with a non-raising callback; and
`should_stop()` returns `False` both when no stop callback is registered and
when the registered callback raises. -/
theorem C10_callback_errors_isolated (cwd : AbsPath) (fs : FS) (path : PyPath) (p : AbsPath)
    (content : String) (f g : FileCb)
    (hok : safe_path_for_project cwd path = Except.ok p)
    (hnd : fs.hasDir p = false)
    (hpar : ∀ d ∈ prefixesOf (parentDir p), fs.lookupFile d = none)
    (hraise : ∀ op rel, ∃ msg, f op rel = Except.error msg) :
    (write_file cwd (some f) fs path content).fs.lookupFile p = some content ∧
    (write_file cwd (some f) fs path content).ret = Except.ok ("WROTE:" ++ pathStr p) ∧
    (write_file cwd (some f) fs path content).events.length = 1 ∧
    write_file cwd (some f) fs path content = write_file cwd (some g) fs path content ∧
    (∀ s, should_stop none = false ∧ should_stop (some (Except.error s)) = false) := by
  have hp : p ≠ [] := write_file_p_ne_nil cwd path p hok
  have hf := write_file_success cwd (some f) fs path p content hok hp hnd hpar
  have hg := write_file_success cwd (some g) fs path p content hok hp hnd hpar
  refine ⟨?_, ?_, ?_, ?_, fun s => ⟨rfl, rfl⟩⟩
  · rw [hf]; exact lookup_cons_self p content _
  · rw [hf]
  · rw [hf]; rfl
  · rw [hf, hg]

/-- Witness for C10: a callback that always raises leaves the same
filesystem and return value as one that never does. -/
theorem C10_callback_errors_isolated_witness :
    (∀ op rel, ∃ msg, (fun (_ : String) (_ : String) =>
      (Except.error "boom" : Except String Unit)) op rel = Except.error msg) ∧
    (write_file ["home", "vijay"] (some (fun _ _ => Except.error "boom")) emptyFS
        ⟨false, ["index.html"]⟩ "hello").ret =
      Except.ok ("WROTE:" ++ pathStr ["home", "vijay", "generated_project", "index.html"]) ∧
    write_file ["home", "vijay"] (some (fun _ _ => Except.error "boom")) emptyFS
        ⟨false, ["index.html"]⟩ "hello" =
      write_file ["home", "vijay"] (some (fun _ _ => Except.ok ())) emptyFS
        ⟨false, ["index.html"]⟩ "hello" := by
  have h := C10_callback_errors_isolated ["home", "vijay"] emptyFS ⟨false, ["index.html"]⟩
    ["home", "vijay", "generated_project", "index.html"] "hello"
    (fun _ _ => Except.error "boom") (fun _ _ => Except.ok ())
    (by decide) (by decide) (by decide) (fun op rel => ⟨"boom", rfl⟩)
  exact ⟨fun op rel => ⟨"boom", rfl⟩, h.2.1, h.2.2.2.1⟩

/-- C3: `safe_invoke` returns a successful call's result unchanged; a raised
error is re-raised as `RateLimitExceeded` exactly when its text contains
`"rate limit"` case-insensitively, and re-raised unchanged otherwise. -/
theorem C3_safe_invoke_classification {α : Type} (call : Except String α) :
    (∀ a, call = Except.ok a → safe_invoke call = InvokeOutcome.ok a) ∧
    (∀ e, call = Except.error e →
      (safe_invoke call = InvokeOutcome.rateLimitExceeded e ↔
        ∃ l r, (pyLower e).data = l ++ ("rate limit".data) ++ r) ∧
      ((¬ ∃ l r, (pyLower e).data = l ++ ("rate limit".data) ++ r) →
        safe_invoke call = InvokeOutcome.raised e)) := by
  constructor
  · rintro a rfl; rfl
  · rintro e rfl
    by_cases hc : containsSub (pyLower e) "rate limit" = true
    · have hsub := (containsSub_iff (pyLower e) "rate limit").mp hc
      constructor
      · exact ⟨fun _ => hsub, fun _ => by simp [safe_invoke, hc]⟩
      · intro hno; exact absurd hsub hno
    · have hsub : ¬ ∃ l r, (pyLower e).data = l ++ ("rate limit".data) ++ r :=
        fun hex => hc ((containsSub_iff (pyLower e) "rate limit").mpr hex)
      have hcf : containsSub (pyLower e) "rate limit" = false := by
        cases hcc : containsSub (pyLower e) "rate limit"
        · rfl
        · exact absurd hcc hc
      constructor
      · constructor
        · intro hres
          exact absurd hres (by simp [safe_invoke, hcf])
        · intro hex; exact absurd hex hsub
      · intro _; simp [safe_invoke, hcf]

/-- Witness for C3: a mixed-case rate-limit message is re-raised as
`RateLimitExceeded`, and a successful call passes through unchanged. -/
theorem C3_safe_invoke_witness :
    safe_invoke (Except.error "Groq API Rate Limit reached" : Except String Unit) =
      InvokeOutcome.rateLimitExceeded "Groq API Rate Limit reached" ∧
    safe_invoke (Except.ok 7 : Except String Nat) = InvokeOutcome.ok 7 := by
  constructor
  · exact ((C3_safe_invoke_classification
        (Except.error "Groq API Rate Limit reached" : Except String Unit)).2
        "Groq API Rate Limit reached" rfl).1.mpr
      ⟨"groq api ".data, " reached".data, by decide⟩
  · exact (C3_safe_invoke_classification (Except.ok 7 : Except String Nat)).1 7 rfl

/-! ### Coder activation facts -/

/-- C6: a Coder activation at which the stop signal is set transitions
straight to Done: status DONE, zero provider invocations, zero tool
invocations, the filesystem untouched, no exception, and the step index
unchanged. -/
theorem C6_stop_signal_immediate_done (env : CoderEnv) (st : GraphState)
    (hstop : should_stop env.stopCb = true) :
    (coder_agent env st).state.status = some "DONE" ∧
    (coder_agent env st).providerCalls = 0 ∧
    (coder_agent env st).toolCalls = 0 ∧
    (coder_agent env st).fs = env.fs ∧
    (coder_agent env st).raised = none ∧
    (coder_agent env st).state.coder_state = some (activeCoderState st) ∧
    (∀ cs, st.coder_state = some cs →
      (coder_agent env st).state.coder_state.map CoderState.current_step_idx =
        some cs.current_step_idx) := by
  unfold coder_agent
  by_cases h : (activeCoderState st).task_plan.implementation_steps.length ≤
      (activeCoderState st).current_step_idx
  · rw [dif_pos h]
    exact ⟨rfl, rfl, rfl, rfl, rfl, rfl, fun cs hcs => by simp [activeCoderState, hcs]⟩
  · rw [dif_neg h, if_pos (by simp [hstop])]
    exact ⟨rfl, rfl, rfl, rfl, rfl, rfl, fun cs hcs => by simp [activeCoderState, hcs]⟩

/-- Witness for C6: with a registered stop callback returning `True`, an
activation sitting before step 0 of a 1-step plan returns DONE with zero
provider and tool invocations and an unchanged filesystem. -/
theorem C6_stop_signal_witness :
    should_stop (some (Except.ok true)) = true ∧
    (coder_agent
      ⟨["home", "vijay"], some (Except.ok true), emptyFS, (emptyFS, Except.ok ())⟩
      ⟨⟨[⟨⟨false, ["index.html"]⟩, "build the page"⟩]⟩,
        some ⟨⟨[⟨⟨false, ["index.html"]⟩, "build the page"⟩]⟩, 0⟩, none⟩).state.status
      = some "DONE" ∧
    (coder_agent
      ⟨["home", "vijay"], some (Except.ok true), emptyFS, (emptyFS, Except.ok ())⟩
      ⟨⟨[⟨⟨false, ["index.html"]⟩, "build the page"⟩]⟩,
        some ⟨⟨[⟨⟨false, ["index.html"]⟩, "build the page"⟩]⟩, 0⟩, none⟩).toolCalls = 0 ∧
    (coder_agent
      ⟨["home", "vijay"], some (Except.ok true), emptyFS, (emptyFS, Except.ok ())⟩
      ⟨⟨[⟨⟨false, ["index.html"]⟩, "build the page"⟩]⟩,
        some ⟨⟨[⟨⟨false, ["index.html"]⟩, "build the page"⟩]⟩, 0⟩, none⟩).state.coder_state.map
      CoderState.current_step_idx = some 0 := by
  have h := C6_stop_signal_immediate_done
    ⟨["home", "vijay"], some (Except.ok true), emptyFS, (emptyFS, Except.ok ())⟩
    ⟨⟨[⟨⟨false, ["index.html"]⟩, "build the page"⟩]⟩,
      some ⟨⟨[⟨⟨false, ["index.html"]⟩, "build the page"⟩]⟩, 0⟩, none⟩ rfl
  exact ⟨rfl, h.1, h.2.2.1, h.2.2.2.2.2.2 _ rfl⟩

/-- Full characterisation of an activation that processes a step: index in
range, stop signal clear, and the pre-invocation read of the step's file
succeeds.  The step index advances by one and status becomes DONE exactly
when the index reaches the step count — independently of the sub-call's
outcome `env.subcall`. -/
theorem coder_activation_processes (env : CoderEnv) (st : GraphState)
    (hidx : (activeCoderState st).current_step_idx <
      (activeCoderState st).task_plan.implementation_steps.length)
    (hstop : should_stop env.stopCb = false)
    (hread : ∃ s, read_file env.cwd env.fs
      (((activeCoderState st).task_plan.implementation_steps.get
        ⟨(activeCoderState st).current_step_idx, hidx⟩).filepath) = Except.ok s) :
    coder_agent env st =
      ⟨⟨st.task_plan,
          some ⟨(activeCoderState st).task_plan, (activeCoderState st).current_step_idx + 1⟩,
          if (activeCoderState st).task_plan.implementation_steps.length ≤
              (activeCoderState st).current_step_idx + 1
            then some "DONE" else st.status⟩,
        env.subcall.1, 1, 1, none⟩ := by
  obtain ⟨s, hs⟩ := hread
  unfold coder_agent
  rw [dif_neg (by omega), if_neg (by simp [hstop])]
  simp only [hs]
  by_cases h2 : (activeCoderState st).task_plan.implementation_steps.length ≤
      (activeCoderState st).current_step_idx + 1
  · rw [if_pos h2, if_pos h2]
  · rw [if_neg h2, if_neg h2]

/-- C4 (amended): a Coder activation that processes a step (index in range,
stop signal clear) advances `current_step_idx` by exactly one whether the
react sub-call succeeds or raises — PROVIDED the pre-invocation read of the
step's existing content succeeds.  The amendment this claim needs: that
read (`read_file.run(current_task.filepath)`, graph.py line 97) sits
OUTSIDE the `try/except`, so a SandboxViolation raised there propagates out
of the activation and aborts the run without advancing the index (see the
counterexample theorem). -/
theorem C4_step_advance_amended (env : CoderEnv) (st : GraphState)
    (hidx : (activeCoderState st).current_step_idx <
      (activeCoderState st).task_plan.implementation_steps.length)
    (hstop : should_stop env.stopCb = false)
    (hread : ∃ s, read_file env.cwd env.fs
      (((activeCoderState st).task_plan.implementation_steps.get
        ⟨(activeCoderState st).current_step_idx, hidx⟩).filepath) = Except.ok s) :
    (coder_agent env st).raised = none ∧
    (coder_agent env st).state.coder_state =
      some ⟨(activeCoderState st).task_plan, (activeCoderState st).current_step_idx + 1⟩ ∧
    (coder_agent env st).state.task_plan = st.task_plan ∧
    ((activeCoderState st).current_step_idx + 1 =
        (activeCoderState st).task_plan.implementation_steps.length →
      (coder_agent env st).state.status = some "DONE") ∧
    ((activeCoderState st).current_step_idx + 1 <
        (activeCoderState st).task_plan.implementation_steps.length →
      (coder_agent env st).state.status = st.status) := by
  rw [coder_activation_processes env st hidx hstop hread]
  refine ⟨rfl, rfl, rfl, ?_, ?_⟩
  · intro heq
    show (if (activeCoderState st).task_plan.implementation_steps.length ≤
        (activeCoderState st).current_step_idx + 1
      then some "DONE" else st.status) = some "DONE"
    rw [if_pos (by omega)]
  · intro hlt
    show (if (activeCoderState st).task_plan.implementation_steps.length ≤
        (activeCoderState st).current_step_idx + 1
      then some "DONE" else st.status) = st.status
    rw [if_neg (by omega)]

/-- Witness for C4 (amended): processing step 0 of a 1-step plan with an
in-sandbox filepath advances the index to 1 and propagates nothing, even
though the sub-call raises. -/
theorem C4_step_advance_witness :
    should_stop (none : Option (Except String Bool)) = false ∧
    (coder_agent
      ⟨["home", "vijay"], none, emptyFS, (emptyFS, Except.error "boom")⟩
      ⟨⟨[⟨⟨false, ["index.html"]⟩, "build the page"⟩]⟩, none, none⟩).raised = none ∧
    (coder_agent
      ⟨["home", "vijay"], none, emptyFS, (emptyFS, Except.error "boom")⟩
      ⟨⟨[⟨⟨false, ["index.html"]⟩, "build the page"⟩]⟩, none, none⟩).state.coder_state =
      some ⟨⟨[⟨⟨false, ["index.html"]⟩, "build the page"⟩]⟩, 1⟩ := by
  have h := C4_step_advance_amended
    ⟨["home", "vijay"], none, emptyFS, (emptyFS, Except.error "boom")⟩
    ⟨⟨[⟨⟨false, ["index.html"]⟩, "build the page"⟩]⟩, none, none⟩
    (by decide) rfl ⟨"", by decide⟩
  exact ⟨rfl, h.1, h.2.1⟩

/-- Counterexample to C4 as stated: a step whose filepath is `/etc/passwd`
(a SandboxViolation) makes the activation raise — the exception from the
pre-invocation read propagates, the run aborts, and `current_step_idx` is
NOT advanced. -/
theorem C4_sandbox_step_aborts_counterexample :
    (coder_agent
      ⟨["home", "vijay"], none, emptyFS, (emptyFS, Except.ok ())⟩
      ⟨⟨[⟨⟨true, ["etc", "passwd"]⟩, "exfiltrate"⟩]⟩, none, none⟩).raised =
      some "Attempt to write outside project root" ∧
    (coder_agent
      ⟨["home", "vijay"], none, emptyFS, (emptyFS, Except.ok ())⟩
      ⟨⟨[⟨⟨true, ["etc", "passwd"]⟩, "exfiltrate"⟩]⟩, none, none⟩).state.coder_state = none := by
  exact ⟨by decide, by decide⟩

/-- The DONE branch of an activation whose index is past the last step. -/
theorem coder_activation_done (env : CoderEnv) (st : GraphState)
    (h : (activeCoderState st).task_plan.implementation_steps.length ≤
      (activeCoderState st).current_step_idx) :
    coder_agent env st =
      ⟨⟨st.task_plan, some (activeCoderState st), some "DONE"⟩, env.fs, 0, 0, none⟩ := by
  unfold coder_agent
  rw [dif_pos h]

/-- After `k` activations (`1 ≤ k ≤ N`) from a fresh state, the Coder sits at
index `k` with status DONE exactly when `k = N`. -/
theorem runCoder_reaches (tp : TaskPlan) (env : Nat → CoderEnv)
    (hstop : ∀ k, should_stop (env k).stopCb = false)
    (hread : ∀ k (hk : k < tp.implementation_steps.length),
      ∃ s, read_file (env k).cwd (env k).fs
        ((tp.implementation_steps.get ⟨k, hk⟩).filepath) = Except.ok s) :
    ∀ k, 1 ≤ k → k ≤ tp.implementation_steps.length →
      runCoder env ⟨tp, none, none⟩ k =
        ⟨tp, some ⟨tp, k⟩,
          if tp.implementation_steps.length ≤ k then some "DONE" else none⟩ := by
  intro k
  induction k with
  | zero => intro h1 _; omega
  | succ n ih =>
    intro _ h2
    by_cases hn : n = 0
    · subst hn
      have h0 : (0 : Nat) < tp.implementation_steps.length := by omega
      have hact := coder_activation_processes (env 0) ⟨tp, none, none⟩ h0
        (hstop 0) (hread 0 h0)
      simp only [runCoder, hact]
      rfl
    · have hlt : n < tp.implementation_steps.length := by omega
      have hih := ih (by omega) (by omega)
      rw [if_neg (by omega)] at hih
      have hact := coder_activation_processes (env n) ⟨tp, some ⟨tp, n⟩, none⟩ hlt
        (hstop n) (hread n hlt)
      simp only [runCoder, hih, hact]
      rfl

/-- C5 (amended): for a plan of `N` independently completable steps with the
stop signal never set, the Coder reaches DONE (and the graph edge selects
END) within `max N 1` activations: `N` activations when `N ≥ 1`, and one
activation — the one that observes the empty step list and sets DONE — when
`N = 0`.  The amendment: the claim's bound of `N` activations fails at
`N = 0`, where status DONE still requires that single activation (see the
counterexample theorem). -/
theorem C5_done_within_max_activations (tp : TaskPlan) (env : Nat → CoderEnv)
    (hstop : ∀ k, should_stop (env k).stopCb = false)
    (hread : ∀ k (hk : k < tp.implementation_steps.length),
      ∃ s, read_file (env k).cwd (env k).fs
        ((tp.implementation_steps.get ⟨k, hk⟩).filepath) = Except.ok s) :
    (runCoder env ⟨tp, none, none⟩ (max tp.implementation_steps.length 1)).status
      = some "DONE" ∧
    coder_edge (runCoder env ⟨tp, none, none⟩ (max tp.implementation_steps.length 1))
      = "END" := by
  have hgoal : (runCoder env ⟨tp, none, none⟩
      (max tp.implementation_steps.length 1)).status = some "DONE" := by
    by_cases hN : tp.implementation_steps.length = 0
    · have hmax : max tp.implementation_steps.length 1 = 1 := by omega
      rw [hmax]
      have hact := coder_activation_done (env 0) ⟨tp, none, none⟩
        (show tp.implementation_steps.length ≤ 0 by omega)
      simp only [runCoder, hact]
    · have hmax : max tp.implementation_steps.length 1 = tp.implementation_steps.length :=
        Nat.max_eq_left (by omega)
      rw [hmax]
      rw [runCoder_reaches tp env hstop hread tp.implementation_steps.length (by omega)
        (Nat.le_refl _)]
      simp
  refine ⟨hgoal, ?_⟩
  unfold coder_edge
  rw [if_pos hgoal]

/-- Witness for C5 (amended): a one-step plan with an in-sandbox filepath
reaches DONE in `max 1 1 = 1` activation. -/
theorem C5_done_within_max_activations_witness :
    (runCoder (fun _ => ⟨["home", "vijay"], none, emptyFS, (emptyFS, Except.ok ())⟩)
      ⟨⟨[⟨⟨false, ["index.html"]⟩, "build the page"⟩]⟩, none, none⟩ 1).status
      = some "DONE" := by
  have h := C5_done_within_max_activations ⟨[⟨⟨false, ["index.html"]⟩, "build the page"⟩]⟩
    (fun _ => ⟨["home", "vijay"], none, emptyFS, (emptyFS, Except.ok ())⟩)
    (fun _ => rfl)
    (fun k hk => by
      have hk0 : k = 0 := by
        simpa using hk
      subst hk0
      exact ⟨"", rfl⟩)
  exact h.1

/-- Counterexample to C5 as stated: with `N = 0` steps the Coder is NOT Done
within `N = 0` activations — after zero activations status is still unset
and the edge selector would loop back to the Coder, because the single
activation that notices the empty plan and sets DONE has not run yet. -/
theorem C5_zero_steps_counterexample :
    (runCoder (fun _ => ⟨["home", "vijay"], none, emptyFS, (emptyFS, Except.ok ())⟩)
        ⟨⟨[]⟩, none, none⟩ 0).status ≠ some "DONE" ∧
    coder_edge (runCoder (fun _ => ⟨["home", "vijay"], none, emptyFS, (emptyFS, Except.ok ())⟩)
        ⟨⟨[]⟩, none, none⟩ 0) ≠ "END" := by
  exact ⟨by decide, by decide⟩

/-! ### Event relay ordering -/

theorem relay_invariant (evs : List (String × String)) (s : RelayState)
    (h : RelayReach ⟨evs, [], []⟩ s) :
    ∃ done, s.emitted = done.map emitMsg ∧ done ++ s.queue ++ s.pending = evs := by
  induction h with
  | refl => exact ⟨[], rfl, by simp⟩
  | tail hreach hstep ih =>
    obtain ⟨done, hem, hsplit⟩ := ih
    cases hstep with
    | enqueue e rest queue em =>
      have hem' : em = done.map emitMsg := hem
      have hsplit' : done ++ queue ++ (e :: rest) = evs := hsplit
      refine ⟨done, hem', ?_⟩
      show done ++ (queue ++ [e]) ++ rest = evs
      rw [← hsplit']
      simp [List.append_assoc]
    | drain pending e queue em =>
      have hem' : em = done.map emitMsg := hem
      have hsplit' : done ++ (e :: queue) ++ pending = evs := hsplit
      refine ⟨done ++ [e], ?_, ?_⟩
      · show em ++ [emitMsg e] = (done ++ [e]).map emitMsg
        rw [hem', List.map_append]
        rfl
      · show (done ++ [e]) ++ queue ++ pending = evs
        rw [← hsplit']
        simp [List.append_assoc]

/-- C7: under any interleaving of the worker's enqueues and the poller's
drains, the emitted messages are always a prefix of the per-event messages
in enqueue order, and once the worker has enqueued everything and the queue
is drained, exactly one message has been emitted per enqueued item, in
enqueue order — no reordering, no dropping, for sequences of any length
(0, 1, or more than 100). -/
theorem C7_relay_order_preserved (evs : List (String × String)) (s : RelayState)
    (hreach : RelayReach ⟨evs, [], []⟩ s) :
    s.emitted <+: evs.map emitMsg ∧
    (s.pending = [] → s.queue = [] → s.emitted = evs.map emitMsg) := by
  obtain ⟨done, hem, hsplit⟩ := relay_invariant evs s hreach
  constructor
  · refine ⟨(s.queue ++ s.pending).map emitMsg, ?_⟩
    rw [hem, ← List.map_append, ← hsplit, List.append_assoc]
  · intro hp hq
    rw [hp, hq] at hsplit
    simp only [List.append_nil] at hsplit
    rw [hem, hsplit]

/-- Witness for C7: a create followed by an update on the same path, fully
relayed, comes out as exactly those two messages in order. -/
theorem C7_relay_order_witness :
    (⟨[], [],
      [emitMsg ("file_create", "index.html"), emitMsg ("file_update", "index.html")]⟩
        : RelayState).emitted =
      ([("file_create", "index.html"), ("file_update", "index.html")]).map emitMsg := by
  have hreach : RelayReach
      ⟨[("file_create", "index.html"), ("file_update", "index.html")], [], []⟩
      ⟨[], [],
        [emitMsg ("file_create", "index.html"), emitMsg ("file_update", "index.html")]⟩ :=
    RelayReach.tail
      (RelayReach.tail
        (RelayReach.tail
          (RelayReach.tail (RelayReach.refl _)
            (RelayStep.enqueue ("file_create", "index.html")
              [("file_update", "index.html")] [] []))
          (RelayStep.drain [("file_update", "index.html")] ("file_create", "index.html") [] []))
        (RelayStep.enqueue ("file_update", "index.html") [] []
          [emitMsg ("file_create", "index.html")]))
      (RelayStep.drain [] ("file_update", "index.html") []
        [emitMsg ("file_create", "index.html")])
  exact (C7_relay_order_preserved _ _ hreach).2 rfl rfl

/-! ### Completion-protocol ordering -/

theorem emitMsg_ne_statusCompleted (ev : String × String) : emitMsg ev ≠ statusCompleted := by
  intro h
  have hst := congrArg OutMsg.status h
  simp [emitMsg, statusCompleted] at hst

theorem filterMap_emit (l : List (String × String)) :
    List.filterMap (fun a => match a with
      | RunAction.emit m => some m
      | RunAction.deregisterHook => none) (l.map (fun e => RunAction.emit (emitMsg e)))
      = l.map emitMsg := by
  induction l with
  | nil => rfl
  | cons e t ih => simp [List.filterMap_cons, ih]

/-- C8 (amended): after a successful run every queued event is emitted
exactly once in enqueue order, and the observer hook is deregistered only
after draining completes (the deregistration is the last action, after every
emission).  However the `status=completed` message is emitted after a FIXED
grace period, not after the queue empties: it is the run's last emitted
event exactly when the backlog left at worker completion drains within the
grace period (`backlog.length ≤ g`); any remainder is emitted after it. -/
theorem C8_completion_order_amended (backlog : List (String × String)) (g : Nat) :
    (run_agent_with_monitoring backlog g).getLast? = some RunAction.deregisterHook ∧
    emittedMsgs (run_agent_with_monitoring backlog g) =
      (backlog.take g).map emitMsg ++ [statusCompleted] ++ (backlog.drop g).map emitMsg ∧
    (emittedMsgs (run_agent_with_monitoring backlog g)).filter
      (fun m => ! (m == statusCompleted)) = backlog.map emitMsg ∧
    ((emittedMsgs (run_agent_with_monitoring backlog g)).getLast? = some statusCompleted ↔
      backlog.length ≤ g) := by
  have hemit : emittedMsgs (run_agent_with_monitoring backlog g) =
      (backlog.take g).map emitMsg ++ [statusCompleted] ++ (backlog.drop g).map emitMsg := by
    unfold emittedMsgs run_agent_with_monitoring
    rw [List.filterMap_append, List.filterMap_append, List.filterMap_append,
      filterMap_emit, filterMap_emit]
    simp
  refine ⟨?_, hemit, ?_, ?_⟩
  · unfold run_agent_with_monitoring
    exact List.getLast?_concat _
  · rw [hemit]
    rw [List.filter_append, List.filter_append]
    have htake : ((backlog.take g).map emitMsg).filter (fun m => ! (m == statusCompleted)) =
        (backlog.take g).map emitMsg := by
      apply List.filter_eq_self.mpr
      intro m hm
      obtain ⟨e, _, rfl⟩ := List.mem_map.mp hm
      simp [beq_false_of_ne (emitMsg_ne_statusCompleted e)]
    have hdrop : ((backlog.drop g).map emitMsg).filter (fun m => ! (m == statusCompleted)) =
        (backlog.drop g).map emitMsg := by
      apply List.filter_eq_self.mpr
      intro m hm
      obtain ⟨e, _, rfl⟩ := List.mem_map.mp hm
      simp [beq_false_of_ne (emitMsg_ne_statusCompleted e)]
    have hstatus : ([statusCompleted] : List OutMsg).filter
        (fun m => ! (m == statusCompleted)) = [] := by
      simp
    rw [htake, hdrop, hstatus, List.append_nil, ← List.map_append, List.take_append_drop]
  · rw [hemit]
    constructor
    · intro hlast
      by_contra hgt
      have hne : backlog.drop g ≠ [] := fun hnil => hgt (List.drop_eq_nil_iff.mp hnil)
      obtain ⟨e, he⟩ := Option.isSome_iff_exists.mp (List.getLast?_isSome.mpr hne)
      have hB : ((backlog.drop g).map emitMsg).getLast? = some (emitMsg e) := by
        rw [List.getLast?_map, he]
        rfl
      rw [List.getLast?_append, hB] at hlast
      have hlast' : some (emitMsg e) = some statusCompleted := hlast
      exact emitMsg_ne_statusCompleted e (Option.some.inj hlast')
    · intro hle
      have hnil : backlog.drop g = [] := List.drop_eq_nil_iff.mpr hle
      rw [hnil]
      simp [List.getLast?_concat]

/-- Witness for C8 (amended): one backlogged event with a five-item grace
period — the deregistration is the last action and `status=completed` is the
last emitted message. -/
theorem C8_completion_order_witness :
    (run_agent_with_monitoring [("file_create", "a.txt")] 5).getLast?
      = some RunAction.deregisterHook ∧
    (emittedMsgs (run_agent_with_monitoring [("file_create", "a.txt")] 5)).getLast?
      = some statusCompleted :=
  ⟨(C8_completion_order_amended [("file_create", "a.txt")] 5).1,
    (C8_completion_order_amended [("file_create", "a.txt")] 5).2.2.2.mpr (by decide)⟩

/-- Counterexample to C8 as stated: six events still queued when the worker
completes, with the grace period draining five, leave the sixth file event
emitted AFTER the `status=completed` message — the run's last emitted event
is not the status message. -/
theorem C8_status_not_last_counterexample :
    (emittedMsgs (run_agent_with_monitoring
      [("file_create", "a1"), ("file_create", "a2"), ("file_create", "a3"),
       ("file_create", "a4"), ("file_create", "a5"), ("file_create", "a6")] 5)).getLast?
      ≠ some statusCompleted := by
  decide

/-! ### The REST endpoints' containment check -/

/-- C9 (the code contradicts this claim): the REST file endpoints decide
access with a STRING-prefix comparison
(`str(file_path.resolve()).startswith(str(PROJECT_ROOT.resolve()))`), which
is NOT the tool layer's root-containment criterion.  At
`filepath = "../generated_project_evil/secret.txt"` the resolved path lies
outside the sandbox root — the tool layer rejects it — yet the endpoints'
check passes: the read endpoint serves the out-of-sandbox file's content,
the delete endpoint does not answer 403, and the preview endpoint serves
the file, because the sibling directory's name extends the root's name as a
string. -/
theorem C9_startswith_check_escapes_root :
    Api.passes_security_check ["home", "vijay"]
      ⟨false, ["..", "generated_project_evil", "secret.txt"]⟩ = true ∧
    ¬ (normalize (PROJECT_ROOT ["home", "vijay"]) <+:
        resolvePath (PROJECT_ROOT ["home", "vijay"])
          ⟨false, ["..", "generated_project_evil", "secret.txt"]⟩) ∧
    safe_path_for_project ["home", "vijay"]
      ⟨false, ["..", "generated_project_evil", "secret.txt"]⟩ =
      Except.error "Attempt to write outside project root" ∧
    Api.read_file ["home", "vijay"]
      ⟨[(["home", "vijay", "generated_project_evil", "secret.txt"], "TOP SECRET")], []⟩
      ⟨false, ["..", "generated_project_evil", "secret.txt"]⟩ = Except.ok "TOP SECRET" ∧
    (Api.delete_file ["home", "vijay"]
      ⟨[(["home", "vijay", "generated_project_evil", "secret.txt"], "TOP SECRET")], []⟩
      ⟨false, ["..", "generated_project_evil", "secret.txt"]⟩).2 ≠ Except.error 403 ∧
    Api.serve_preview_file ["home", "vijay"]
      ⟨[(["home", "vijay", "generated_project_evil", "secret.txt"], "TOP SECRET")], []⟩
      ⟨false, ["..", "generated_project_evil", "secret.txt"]⟩ =
      Except.ok ("TOP SECRET", "text/plain") := by
  exact ⟨by decide, by decide, by decide, by decide, by decide, by decide⟩

end Brahmastra
